import Mathlib

/-!
Verification of `cleanup-events` (`main.go`): a shallow embedding of the
retention classifier, the retry wrapper `opWithRetries`, the per-namespace
pipeline `cleanupEvents` and the run-level driver `cleanupAllEvents`,
together with theorems about them.

Timestamps are modelled as integers: the Go zero time (`time.Time{}`) is
the integer 0, `IsZero()` is `= 0`, and `t.Before(u)` is `t < u`.  All
real Kubernetes event timestamps lie strictly after the zero time, so a
run's cutoff `now - duration` is always positive in this model.
The external cluster is modelled as response oracles: `listResp i` is the
cluster's answer to the i-th List attempt in a namespace, and
`deleteResp name i` the answer to the i-th Delete attempt for an event
(`none` meaning success).  `time.Now()` during a namespace's processing is
the field `now` of that namespace's environment.
-/

/-- Relevant fields of a `corev1.Event` (`main.go` lines 258-263):
name, `CreationTimestamp` and `LastTimestamp`, as integers with the Go
zero time at 0. -/
structure Event where
  name : String
  creationTimestamp : Int
  lastTimestamp : Int
deriving Repr, DecidableEq

/-- Retention classifier: the condition under which the loop body at
`main.go` lines 258-264 appends an event to `toDelete`:
`if CreationTimestamp.Before(cutoff) && LastTimestamp.IsZero()` then stale,
`else if LastTimestamp.Before(cutoff)` then stale. -/
def isStale (cutoff : Int) (e : Event) : Bool :=
  if e.creationTimestamp < cutoff ∧ e.lastTimestamp = 0 then true
  else if e.lastTimestamp < cutoff then true
  else false

/-- The `toDelete` list built by the loop at `main.go` lines 257-264:
names of the events classified stale, in listing order. -/
def staleNames (cutoff : Int) (events : List Event) : List String :=
  (events.filter (fun e => isStale cutoff e)).map Event.name

/-- Observable trace of one `opWithRetries` call (`main.go` lines 294-304):
how many times the operation ran, the sleeps performed (in milliseconds,
in order), and the returned error (`none` = nil). -/
structure RetryTrace where
  attempts : Nat
  sleepsMs : List Int
  result : Option String
deriving Repr, DecidableEq

/-- One pass of the loop `for i := 0; i <= retries; i++` of `opWithRetries`
(`main.go` lines 296-302), as a recursion on the remaining iteration count:
run `op i`; on nil return immediately; on failure sleep `(i+1) * 50` ms and
continue, remembering the error for the fall-through `return err`. -/
def retryAux (op : Nat → Option String) : Nat → Nat → Option String → RetryTrace
  | _, 0, lastErr => ⟨0, [], lastErr⟩
  | i, rem + 1, _ =>
    match op i with
    | none => ⟨1, [], none⟩
    | some e =>
      let rest := retryAux op (i + 1) rem (some e)
      ⟨rest.attempts + 1, ((i : Int) + 1) * 50 :: rest.sleepsMs, rest.result⟩

/-- `opWithRetries(op, retries)` (`main.go` lines 294-304).  The loop
`for i := 0; i <= retries; i++` runs `retries + 1` iterations when
`retries >= 0` and none when `retries < 0` (in which case the function
falls through to `return err` with `err` still nil). -/
def opWithRetriesTrace (op : Nat → Option String) (retries : Int) : RetryTrace :=
  retryAux op 0 (if retries < 0 then 0 else retries.toNat + 1) none

/-- Outcome of one Delete API call: success, a "not found" error
(`errors.IsNotFound`), or any other error. -/
inductive DeleteErr where
  | notFound
  | other (msg : String)
deriving Repr, DecidableEq

/-- The closure passed to `opWithRetries` for deletions (`main.go` lines
277-283): call Delete; `if err != nil && !errors.IsNotFound(err)` return
the error, otherwise return nil (so "not found" is success). -/
def wrapDelete (deleteResp : String → Nat → Option DeleteErr) (eventName : String)
    (i : Nat) : Option String :=
  match deleteResp eventName i with
  | none => none
  | some DeleteErr.notFound => none
  | some (DeleteErr.other msg) => some msg

/-- `opWithRetries` applied to the listing closure (`main.go` lines
248-252), keeping the event list captured by the closure: attempt `i`;
on success return that attempt's list, on failure retry while retries
remain, else return the last error. -/
def listRetryGo (listResp : Nat → Except String (List Event)) :
    Nat → Nat → Except String (List Event)
  | i, rem =>
    match listResp i, rem with
    | Except.ok l, _ => Except.ok l
    | Except.error e, 0 => Except.error e
    | Except.error _, rem' + 1 => listRetryGo listResp (i + 1) rem'

/-- Result of the retried event listing in `cleanupEvents` (`main.go`
lines 248-254), for a nonnegative retry count. -/
def listWithRetries (listResp : Nat → Except String (List Event)) (retries : Nat) :
    Except String (List Event) :=
  listRetryGo listResp 0 retries

/-- The `Statistics` struct (`main.go` lines 151-155). -/
structure Statistics where
  totalEvents : Nat
  deletedEvents : Nat
  namespacesScanned : Nat
deriving Repr, DecidableEq

/-- Observable outcome of one `cleanupEvents` call: the updated statistics,
the number of Delete API calls issued, and the returned error. -/
structure NsOutcome where
  stats : Statistics
  deleteCalls : Nat
  err : Option String
deriving Repr, DecidableEq

/-- The deletion loop of `cleanupEvents` (`main.go` lines 276-289): for
each name run the wrapped delete under `opWithRetries`; on a final error
return it (aborting the rest), otherwise continue.  The loop touches no
statistics; it accumulates the count of Delete API calls issued. -/
def deleteLoop (deleteResp : String → Nat → Option DeleteErr) :
    List String → Nat → Nat → Nat × Option String
  | [], _, calls => (calls, none)
  | name :: rest, retries, calls =>
    let tr := opWithRetriesTrace (wrapDelete deleteResp name) (retries : Int)
    match tr.result with
    | some e => (calls + tr.attempts, some ("error deleting event " ++ name ++ ": " ++ e))
    | none => deleteLoop deleteResp rest retries (calls + tr.attempts)

/-- Environment of one namespace: its name, the value `time.Now()` returns
while it is processed (`main.go` line 256), and the cluster's responses to
its List and Delete attempts. -/
structure NsEnv where
  name : String
  now : Int
  listResp : Nat → Except String (List Event)
  deleteResp : String → Nat → Option DeleteErr

/-- `cleanupEvents` (`main.go` lines 245-292): list events with retries
(return the error on final failure); compute `cutoffTime := now - duration`;
build `toDelete`; add the listed count and the stale count to the
statistics (lines 266-267, before any deletion); return if `toDelete` is
empty or dry-run is on; otherwise run the deletion loop. -/
def cleanupEvents (env : NsEnv) (duration : Int) (retries : Nat) (dryRun : Bool)
    (stats : Statistics) : NsOutcome :=
  match listWithRetries env.listResp retries with
  | Except.error e => ⟨stats, 0, some ("error listing events: " ++ e)⟩
  | Except.ok events =>
    let cutoffTime := env.now - duration
    let toDelete := staleNames cutoffTime events
    let stats1 : Statistics :=
      ⟨stats.totalEvents + events.length, stats.deletedEvents + toDelete.length,
       stats.namespacesScanned⟩
    if toDelete.length = 0 then ⟨stats1, 0, none⟩
    else if dryRun then ⟨stats1, 0, none⟩
    else
      let dl := deleteLoop env.deleteResp toDelete retries 0
      ⟨stats1, dl.1, dl.2⟩

/-- Observable outcome of a whole run: the final statistics (the run always
reaches the statistics summary), the per-namespace error messages surfaced
along the way, in order, and the total number of Delete API calls. -/
structure RunResult where
  stats : Statistics
  nsErrors : List String
  deleteCalls : Nat
deriving Repr, DecidableEq

/-- The namespace loop of `cleanupAllEvents` (`main.go` lines 193-199):
run `cleanupEvents` for each namespace in order; on error print (surface)
it and continue; increment `NamespacesScanned` for every namespace. -/
def runNamespaces (duration : Int) (retries : Nat) (dryRun : Bool) :
    List NsEnv → Statistics → RunResult
  | [], stats => ⟨stats, [], 0⟩
  | env :: rest, stats =>
    let out := cleanupEvents env duration retries dryRun stats
    let stats1 : Statistics :=
      ⟨out.stats.totalEvents, out.stats.deletedEvents, out.stats.namespacesScanned + 1⟩
    let rrest := runNamespaces duration retries dryRun rest stats1
    ⟨rrest.stats,
     (match out.err with
      | some e => ["error cleaning up events in namespace " ++ env.name ++ ": " ++ e]
      | none => []) ++ rrest.nsErrors,
     out.deleteCalls + rrest.deleteCalls⟩

/-- `cleanupAllEvents` (`main.go` lines 188-214) after a successful
namespace listing: process every namespace sequentially, never aborting on
a per-namespace error, and reach the final statistics summary. -/
def cleanupAllEvents (envs : List NsEnv) (duration : Int) (retries : Nat)
    (dryRun : Bool) (stats : Statistics) : RunResult :=
  runNamespaces duration retries dryRun envs stats

/-- The final statistics block printed at `main.go` lines 200-211. -/
structure Report where
  mode : String
  namespacesScanned : Nat
  totalEvents : Nat
  deletedEvents : Nat
  retainedEvents : Int
deriving Repr, DecidableEq

/-- Assembly of the final report (`main.go` lines 200-211): mode string by
dry-run, counters from the statistics, and retained events computed by the
integer subtraction `TotalEvents - DeletedEvents` of line 211. -/
def finalReport (dryRun : Bool) (s : Statistics) : Report :=
  ⟨if dryRun then "To be deleted" else "Deleted",
   s.namespacesScanned, s.totalEvents, s.deletedEvents,
   (s.totalEvents : Int) - (s.deletedEvents : Int)⟩


theorem retryAux_zero (op : Nat → Option String) (i : Nat) (last : Option String) :
    retryAux op i 0 last = ⟨0, [], last⟩ := rfl

theorem retryAux_succ (op : Nat → Option String) (i rem : Nat) (last : Option String) :
    retryAux op i (rem + 1) last =
      match op i with
      | none => ⟨1, [], none⟩
      | some e =>
        ⟨(retryAux op (i + 1) rem (some e)).attempts + 1,
         ((i : Int) + 1) * 50 :: (retryAux op (i + 1) rem (some e)).sleepsMs,
         (retryAux op (i + 1) rem (some e)).result⟩ := by
  rw [retryAux]

theorem retryAux_attempts_le (op : Nat → Option String) (fuel : Nat) :
    ∀ (i : Nat) (last : Option String), (retryAux op i fuel last).attempts ≤ fuel := by
  induction fuel with
  | zero => intro i last; simp [retryAux]
  | succ n ih =>
    intro i last
    cases h : op i with
    | none => rw [retryAux_succ, h]; exact Nat.one_le_iff_ne_zero.mpr (Nat.succ_ne_zero n)
    | some e =>
      rw [retryAux_succ, h]
      exact Nat.succ_le_succ (ih (i + 1) (some e))

theorem retryAux_all_fail (op : Nat → Option String) (n : Nat) :
    ∀ (i : Nat) (last : Option String), (∀ j, op j ≠ none) →
      (retryAux op i (n + 1) last).attempts = n + 1 ∧
      (retryAux op i (n + 1) last).result = op (i + n) := by
  induction n with
  | zero =>
    intro i last h
    cases h' : op i with
    | none => exact absurd h' (h i)
    | some e => rw [retryAux_succ, h']; simp [retryAux_zero, h']
  | succ m ih =>
    intro i last h
    cases h' : op i with
    | none => exact absurd h' (h i)
    | some e =>
      have hr := ih (i + 1) (some e) h
      have harg : i + 1 + m = i + (m + 1) := by omega
      rw [retryAux_succ, h']
      refine ⟨?_, ?_⟩
      · show (retryAux op (i + 1) (m + 1) (some e)).attempts + 1 = m + 1 + 1
        rw [hr.1]
      · show (retryAux op (i + 1) (m + 1) (some e)).result = op (i + (m + 1))
        rw [hr.2, harg]

theorem retryAux_first_success (op : Nat → Option String) (m : Nat) :
    ∀ (i fuel : Nat) (last : Option String), m < fuel → op (i + m) = none →
      (∀ j, j < m → op (i + j) ≠ none) →
      (retryAux op i fuel last).attempts = m + 1 ∧
      (retryAux op i fuel last).result = none := by
  induction m with
  | zero =>
    intro i fuel last hm hs _
    cases fuel with
    | zero => omega
    | succ n =>
      have h0 : op i = none := by simpa using hs
      rw [retryAux_succ, h0]
      exact ⟨rfl, rfl⟩
  | succ k ih =>
    intro i fuel last hm hs hf
    cases fuel with
    | zero => omega
    | succ n =>
      cases h' : op i with
      | none => exact absurd h' (by simpa using hf 0 (Nat.succ_pos k))
      | some e =>
        have hs' : op (i + 1 + k) = none := by
          have harg : i + 1 + k = i + (k + 1) := by omega
          rw [harg]; exact hs
        have hf' : ∀ j, j < k → op (i + 1 + j) ≠ none := by
          intro j hj
          have harg : i + 1 + j = i + (j + 1) := by omega
          rw [harg]; exact hf (j + 1) (by omega)
        have hr := ih (i + 1) n (some e) (by omega) hs' hf'
        rw [retryAux_succ, h']
        refine ⟨?_, ?_⟩
        · show (retryAux op (i + 1) n (some e)).attempts + 1 = k + 1 + 1
          rw [hr.1]
        · show (retryAux op (i + 1) n (some e)).result = none
          exact hr.2

theorem opWithRetriesTrace_natCast (op : Nat → Option String) (N : Nat) :
    opWithRetriesTrace op (N : Int) = retryAux op 0 (N + 1) none := by
  have h1 : ¬((N : Int) < 0) := Int.not_lt.mpr (Int.natCast_nonneg N)
  simp [opWithRetriesTrace, h1, Int.toNat_natCast]

/-- Claim C1 (evaluation at the failing input): an event whose last-observed
timestamp is unset (zero) and whose creation timestamp (100) is at/after the
cutoff (50) is nevertheless classified stale and added to the deletion set.
The claim says such an event is fresh; the `else if` branch of the classifier
compares the zero last-observed timestamp itself against the cutoff, and the
zero time precedes any cutoff produced by a real run, so every unset-last
event is stale regardless of its creation timestamp. -/
theorem c1_unset_last_fresh_creation_still_stale :
    isStale 50 ⟨"e1", 100, 0⟩ = true ∧ staleNames 50 [⟨"e1", 100, 0⟩] = ["e1"] := by
  constructor
  · rfl
  · rfl

/-- Claim C4 (evaluation at the failing input, for the clause "for both rules
the comparison is strict"): an event with unset last-observed timestamp whose
deciding (creation) timestamp equals the cutoff exactly is classified stale,
for any cutoff after the zero time, contradicting the claimed strict boundary
behaviour of the unset-timestamp rule. -/
theorem c4_boundary_unset_equal_cutoff_stale : isStale 50 ⟨"e2", 50, 0⟩ = true := by
  rfl

/-- Claim C3, counterexample: with `maxRetries = 0` and an operation that
fails, `opWithRetries` performs its single attempt and then sleeps once
(50 ms) even though no further attempt follows, so "no sleep at all" and
"never after the final attempt" are false of the code. -/
theorem c3_counterexample_sleep_after_final_attempt :
    opWithRetriesTrace (fun _ => some "transient failure") 0 =
      ⟨1, [50], some "transient failure"⟩ := by
  rfl

/-- Claim C3 (amended): with `maxRetries = 0`, `opWithRetries` performs
exactly one attempt of the operation and returns that attempt's outcome; if
the attempt succeeds no sleep occurs, but if it fails one backoff sleep of
50 ms is performed even though it is the final attempt (the loop sleeps
after every failed attempt, including the last). -/
theorem c3_amended_zero_retries_single_attempt (op : Nat → Option String) :
    (opWithRetriesTrace op 0).attempts = 1 ∧
    (opWithRetriesTrace op 0).result = op 0 ∧
    (opWithRetriesTrace op 0).sleepsMs =
      (match op 0 with | none => [] | some _ => [(50 : Int)]) := by
  have h0 : opWithRetriesTrace op 0 = retryAux op 0 1 none := rfl
  rw [h0, retryAux_succ]
  cases h : op 0 with
  | none => exact ⟨rfl, rfl, rfl⟩
  | some e => simp [retryAux_zero, h]

/-- Claim C8: for every operation and every `maxRetries = N ≥ 0`,
`opWithRetries` executes the operation at most `N + 1` times; if the
operation always fails it performs exactly `N + 1` attempts and returns the
error of the last attempt; and if attempt `k` is the first to succeed it
stops there (`k + 1` attempts) and returns nil. -/
theorem c8_attempt_count_bounds (op : Nat → Option String) (N : Nat) :
    (opWithRetriesTrace op (N : Int)).attempts ≤ N + 1 ∧
    ((∀ i, op i ≠ none) →
      (opWithRetriesTrace op (N : Int)).attempts = N + 1 ∧
      (opWithRetriesTrace op (N : Int)).result = op N) ∧
    (∀ k, op k = none → (∀ i, i < k → op i ≠ none) → k ≤ N →
      (opWithRetriesTrace op (N : Int)).attempts = k + 1 ∧
      (opWithRetriesTrace op (N : Int)).result = none) := by
  rw [opWithRetriesTrace_natCast]
  refine ⟨retryAux_attempts_le op (N + 1) 0 none, ?_, ?_⟩
  · intro h
    have hr := retryAux_all_fail op N 0 none h
    simpa using hr
  · intro k hk hlt hkN
    exact retryAux_first_success op k 0 (N + 1) none (by omega)
      (by simpa using hk) (by simpa using hlt)

/-- Witness for C8 at concrete inputs: an always-failing operation with
`maxRetries = 2` runs exactly 3 times and returns the last error; an
operation succeeding on its second attempt runs exactly twice and returns
nil. -/
theorem c8_attempt_count_bounds_witness :
    ((opWithRetriesTrace (fun _ => some "boom") (2 : Int)).attempts = 3 ∧
      (opWithRetriesTrace (fun _ => some "boom") (2 : Int)).result = some "boom") ∧
    ((opWithRetriesTrace (fun i => if i = 0 then some "boom" else none) (2 : Int)).attempts = 2 ∧
      (opWithRetriesTrace (fun i => if i = 0 then some "boom" else none) (2 : Int)).result = none) := by
  constructor
  · exact (c8_attempt_count_bounds (fun _ => some "boom") 2).2.1 (fun i => by simp)
  · exact (c8_attempt_count_bounds (fun i => if i = 0 then some "boom" else none) 2).2.2
      1 (by simp) (fun i hi => by have h0 : i = 0 := by omega
                                  rw [h0]; simp) (by omega)

/-- Claim C10: calling `opWithRetries` with a negative retries value runs
the loop zero times, never calls the operation, performs no sleep, and
falls through to `return err` with `err` still nil, i.e. reports success
without attempting the operation. -/
theorem c10_negative_retries_no_attempt (op : Nat → Option String) (r : Int)
    (h : r < 0) : opWithRetriesTrace op r = ⟨0, [], none⟩ := by
  rw [opWithRetriesTrace, if_pos h, retryAux_zero]

/-- Witness for C10: with retries `-1`, an always-failing operation is never
attempted and nil is returned. -/
theorem c10_negative_retries_no_attempt_witness :
    opWithRetriesTrace (fun _ => some "boom") (-1) = ⟨0, [], none⟩ :=
  c10_negative_retries_no_attempt (fun _ => some "boom") (-1) (by decide)

/-- Claim C4 (amended): for every event whose last-observed timestamp is set
(non-zero), the classifier marks it stale iff its last-observed timestamp is
strictly before the cutoff, regardless of its creation timestamp; for this
rule the comparison is strict, so a set last-observed timestamp equal to the
cutoff is not stale.  (The strictness clause fails for the unset-timestamp
rule, see the counterexample.) -/
theorem c4_amended_set_last_strict (cutoff : Int) (e : Event)
    (h : e.lastTimestamp ≠ 0) :
    isStale cutoff e = true ↔ e.lastTimestamp < cutoff := by
  simp [isStale, h]

/-- Witness for C4 at a concrete input: an event whose set last-observed
timestamp (900) equals the cutoff (900) exactly; by the theorem it is stale
iff `900 < 900`, i.e. it is not stale. -/
theorem c4_amended_set_last_strict_witness :
    isStale 900 ⟨"e3", 0, 900⟩ = true ↔ (900 : Int) < 900 :=
  c4_amended_set_last_strict 900 ⟨"e3", 0, 900⟩ (by decide)

/-- Claim C7: a "not found" error from the Delete call is treated as
success by the wrapped delete operation: `opWithRetries` observes nil on the
first attempt, so exactly one Delete call is made, no retry and no sleep
happen, nil is returned (so no namespace failure arises from this event),
and the deletion loop continues with the next stale event exactly as it
would after a successful delete. -/
theorem c7_not_found_is_success (deleteResp : String → Nat → Option DeleteErr)
    (name : String) (r : Nat) (rest : List String) (calls : Nat)
    (h : deleteResp name 0 = some DeleteErr.notFound) :
    wrapDelete deleteResp name 0 = none ∧
    opWithRetriesTrace (wrapDelete deleteResp name) (r : Int) = ⟨1, [], none⟩ ∧
    deleteLoop deleteResp (name :: rest) r calls =
      deleteLoop deleteResp rest r (calls + 1) := by
  have hw : wrapDelete deleteResp name 0 = none := by
    rw [wrapDelete, h]
  have htr : opWithRetriesTrace (wrapDelete deleteResp name) (r : Int) = ⟨1, [], none⟩ := by
    rw [opWithRetriesTrace_natCast, retryAux_succ, hw]
  refine ⟨hw, htr, ?_⟩
  rw [deleteLoop]
  rw [htr]

/-- Witness for C7 at a concrete input: with a cluster whose Delete always
answers "not found", deleting the first of two stale events consumes one
call and continues with the second, as after a success. -/
theorem c7_not_found_is_success_witness :
    deleteLoop (fun _ _ => some DeleteErr.notFound) ["ev1", "ev2"] 2 0 =
      deleteLoop (fun _ _ => some DeleteErr.notFound) ["ev2"] 2 1 :=
  (c7_not_found_is_success (fun _ _ => some DeleteErr.notFound) "ev1" 2 ["ev2"] 0 rfl).2.2

/-- The event list a namespace's retried listing yields (empty when the
listing fails after all retries). -/
def nsListed (env : NsEnv) (r : Nat) : List Event :=
  match listWithRetries env.listResp r with
  | Except.ok l => l
  | Except.error _ => []

/-- The statistics update of one `cleanupEvents` call: the listed count and
the stale count are added (at `main.go` lines 266-267, independently of what
the deletion loop later does), and `NamespacesScanned` is untouched. -/
theorem cleanupEvents_stats (env : NsEnv) (d : Int) (r : Nat) (dry : Bool)
    (s : Statistics) :
    (cleanupEvents env d r dry s).stats =
      ⟨s.totalEvents + (nsListed env r).length,
       s.deletedEvents + (staleNames (env.now - d) (nsListed env r)).length,
       s.namespacesScanned⟩ := by
  cases h : listWithRetries env.listResp r with
  | error e => simp [cleanupEvents, nsListed, h, staleNames]
  | ok l =>
    simp only [cleanupEvents, nsListed, h]
    split
    · rfl
    · split
      · rfl
      · rfl

/-- The Delete calls issued and the error returned by `cleanupEvents` do not
depend on the incoming statistics. -/
theorem cleanupEvents_stats_indep (env : NsEnv) (d : Int) (r : Nat) (dry : Bool)
    (s s' : Statistics) :
    (cleanupEvents env d r dry s).deleteCalls =
      (cleanupEvents env d r dry s').deleteCalls ∧
    (cleanupEvents env d r dry s).err = (cleanupEvents env d r dry s').err := by
  cases h : listWithRetries env.listResp r with
  | error e => simp [cleanupEvents, h]
  | ok l =>
    simp only [cleanupEvents, h]
    split
    · exact ⟨rfl, rfl⟩
    · split
      · exact ⟨rfl, rfl⟩
      · exact ⟨rfl, rfl⟩

theorem runNamespaces_scanned (d : Int) (r : Nat) (dry : Bool) :
    ∀ (envs : List NsEnv) (s : Statistics),
      (runNamespaces d r dry envs s).stats.namespacesScanned =
        s.namespacesScanned + envs.length := by
  intro envs
  induction envs with
  | nil => intro s; simp [runNamespaces]
  | cons env rest ih =>
    intro s
    simp only [runNamespaces]
    rw [ih]
    rw [cleanupEvents_stats]
    simp
    omega

theorem runNamespaces_total (d : Int) (r : Nat) (dry : Bool) :
    ∀ (envs : List NsEnv) (s : Statistics),
      (runNamespaces d r dry envs s).stats.totalEvents =
        s.totalEvents + (envs.map (fun env => (nsListed env r).length)).sum := by
  intro envs
  induction envs with
  | nil => intro s; simp [runNamespaces]
  | cons env rest ih =>
    intro s
    simp only [runNamespaces]
    rw [ih]
    rw [cleanupEvents_stats]
    simp
    omega

theorem runNamespaces_deleted (d : Int) (r : Nat) (dry : Bool) :
    ∀ (envs : List NsEnv) (s : Statistics),
      (runNamespaces d r dry envs s).stats.deletedEvents =
        s.deletedEvents +
          (envs.map
            (fun env => (staleNames (env.now - d) (nsListed env r)).length)).sum := by
  intro envs
  induction envs with
  | nil => intro s; simp [runNamespaces]
  | cons env rest ih =>
    intro s
    simp only [runNamespaces]
    rw [ih]
    rw [cleanupEvents_stats]
    simp
    omega

theorem runNamespaces_calls (d : Int) (r : Nat) (dry : Bool) :
    ∀ (envs : List NsEnv) (s : Statistics),
      (runNamespaces d r dry envs s).deleteCalls =
        (envs.map (fun env => (cleanupEvents env d r dry ⟨0, 0, 0⟩).deleteCalls)).sum := by
  intro envs
  induction envs with
  | nil => intro s; simp [runNamespaces]
  | cons env rest ih =>
    intro s
    simp only [runNamespaces]
    rw [ih]
    rw [(cleanupEvents_stats_indep env d r dry s ⟨0, 0, 0⟩).1]
    simp

/-- The error message a namespace contributes to the run's surfaced errors
(`main.go` line 196): one line when `cleanupEvents` fails, nothing
otherwise. -/
def nsErrMsg (env : NsEnv) (d : Int) (r : Nat) (dry : Bool) : List String :=
  match (cleanupEvents env d r dry ⟨0, 0, 0⟩).err with
  | some e => ["error cleaning up events in namespace " ++ env.name ++ ": " ++ e]
  | none => []

theorem runNamespaces_errors (d : Int) (r : Nat) (dry : Bool) :
    ∀ (envs : List NsEnv) (s : Statistics),
      (runNamespaces d r dry envs s).nsErrors =
        (envs.map (fun env => nsErrMsg env d r dry)).flatten := by
  intro envs
  induction envs with
  | nil => intro s; simp [runNamespaces]
  | cons env rest ih =>
    intro s
    simp only [runNamespaces, List.map_cons, List.flatten_cons]
    rw [ih]
    rw [nsErrMsg, (cleanupEvents_stats_indep env d r dry ⟨0, 0, 0⟩ s).2]

/-- A recurring event (set last-observed timestamp 950, created at 940). -/
def sharedEvent : Event := ⟨"ev", 940, 950⟩

/-- A cluster listing response that always answers with the single event
`sharedEvent`. -/
def listSharedEvent : Nat → Except String (List Event) := fun _ => Except.ok [sharedEvent]

/-- A namespace processed while `time.Now()` reads 1000, holding
`sharedEvent`, with all deletions succeeding. -/
def envA : NsEnv := ⟨"ns1", 1000, listSharedEvent, fun _ _ => none⟩

/-- A namespace processed while `time.Now()` reads 2000, holding the same
event list as `envA`, with all deletions succeeding. -/
def envB : NsEnv := ⟨"ns2", 2000, listSharedEvent, fun _ _ => none⟩

/-- A namespace whose event listing fails on every attempt. -/
def envF : NsEnv := ⟨"ns2f", 1500, fun _ => Except.error "boom", fun _ _ => none⟩

/-- Claim C2, counterexample: in a run with duration 100 over two namespaces
holding the identical event list, the namespaces are classified against
different cutoffs (`time.Now()` is re-read inside `cleanupEvents`, `main.go`
line 256): the event is fresh in the first namespace (cutoff 900) and stale
in the second (cutoff 1900), and the run deletes exactly 1 of the 2 copies —
impossible under a single run-wide cutoff. -/
theorem c2_counterexample_cutoff_recomputed :
    envA.listResp = envB.listResp ∧
    envA.now - 100 ≠ envB.now - 100 ∧
    isStale (envA.now - 100) sharedEvent = false ∧
    isStale (envB.now - 100) sharedEvent = true ∧
    (cleanupAllEvents [envA, envB] 100 2 false ⟨0, 0, 0⟩).stats.deletedEvents = 1 := by
  refine ⟨rfl, by decide, rfl, rfl, ?_⟩
  rfl

/-- Claim C2 (amended): the cutoff is computed once per namespace, not once
per run: namespace `env` is classified against the single cutoff
`env.now - duration` read at the start of its processing, so the run's
deleted and total counters are the sums, over the namespaces in order, of
the per-namespace stale and listed counts taken at that namespace's own
cutoff — which may differ between namespaces. -/
theorem c2_amended_cutoff_per_namespace (envs : List NsEnv) (d : Int) (r : Nat)
    (dry : Bool) (s0 : Statistics) :
    (cleanupAllEvents envs d r dry s0).stats.deletedEvents =
      s0.deletedEvents +
        (envs.map
          (fun env => (staleNames (env.now - d) (nsListed env r)).length)).sum ∧
    (cleanupAllEvents envs d r dry s0).stats.totalEvents =
      s0.totalEvents + (envs.map (fun env => (nsListed env r).length)).sum :=
  ⟨runNamespaces_deleted d r dry envs s0, runNamespaces_total d r dry envs s0⟩

/-- Claim C5: a namespace whose event listing still fails after all retries
does not abort the run: removing it from the namespace sequence changes
neither the total-events counter, nor the deleted-events counter, nor the
number of Delete calls (so every other namespace is still fully processed);
the failed namespace is still counted in `namespacesScanned`; its error is
surfaced in the run's error messages; and the run still produces its final
statistics. -/
theorem c5_failed_namespace_isolated (pre post : List NsEnv) (env : NsEnv)
    (d : Int) (r : Nat) (dry : Bool) (s0 : Statistics) (e : String)
    (h : listWithRetries env.listResp r = Except.error e) :
    (cleanupAllEvents (pre ++ env :: post) d r dry s0).stats.totalEvents =
      (cleanupAllEvents (pre ++ post) d r dry s0).stats.totalEvents ∧
    (cleanupAllEvents (pre ++ env :: post) d r dry s0).stats.deletedEvents =
      (cleanupAllEvents (pre ++ post) d r dry s0).stats.deletedEvents ∧
    (cleanupAllEvents (pre ++ env :: post) d r dry s0).deleteCalls =
      (cleanupAllEvents (pre ++ post) d r dry s0).deleteCalls ∧
    (cleanupAllEvents (pre ++ env :: post) d r dry s0).stats.namespacesScanned =
      s0.namespacesScanned + pre.length + 1 + post.length ∧
    ("error cleaning up events in namespace " ++ env.name ++ ": " ++
      ("error listing events: " ++ e)) ∈
      (cleanupAllEvents (pre ++ env :: post) d r dry s0).nsErrors := by
  have hlist : nsListed env r = [] := by simp [nsListed, h]
  have herr : (cleanupEvents env d r dry ⟨0, 0, 0⟩).err =
      some ("error listing events: " ++ e) := by
    simp [cleanupEvents, h]
  have hcalls0 : (cleanupEvents env d r dry ⟨0, 0, 0⟩).deleteCalls = 0 := by
    simp [cleanupEvents, h]
  simp only [cleanupAllEvents]
  refine ⟨?_, ?_, ?_, ?_, ?_⟩
  · rw [runNamespaces_total, runNamespaces_total]
    simp [hlist]
  · rw [runNamespaces_deleted, runNamespaces_deleted]
    simp [hlist, staleNames]
  · rw [runNamespaces_calls, runNamespaces_calls]
    simp [hcalls0]
  · rw [runNamespaces_scanned]
    simp
    omega
  · rw [runNamespaces_errors]
    simp only [List.map_append, List.map_cons, List.flatten_append, List.flatten_cons]
    rw [nsErrMsg, herr]
    simp

/-- Witness for C5 at a concrete run of 3 namespaces where the middle one's
listing always fails with "boom": all 3 are counted as scanned and the
middle namespace's listing error is among the surfaced messages. -/
theorem c5_failed_namespace_isolated_witness :
    (cleanupAllEvents [envA, envF, envB] 100 2 false ⟨0, 0, 0⟩).stats.namespacesScanned = 3 ∧
    ("error cleaning up events in namespace " ++ envF.name ++ ": " ++
      ("error listing events: " ++ "boom")) ∈
      (cleanupAllEvents [envA, envF, envB] 100 2 false ⟨0, 0, 0⟩).nsErrors := by
  have hc := c5_failed_namespace_isolated [envA] [envB] envF 100 2 false ⟨0, 0, 0⟩ "boom" rfl
  constructor
  · have hs := hc.2.2.2.1
    simpa using hs
  · exact hc.2.2.2.2

/-- Claim C6: with dry-run enabled, `cleanupEvents` issues zero Delete calls
and raises no error, whatever the stale-set size, yet the statistics are
still incremented by the full stale count and by the full listed count. -/
theorem c6_dry_run_counts_without_deleting (env : NsEnv) (d : Int) (r : Nat)
    (s : Statistics) (l : List Event)
    (h : listWithRetries env.listResp r = Except.ok l) :
    (cleanupEvents env d r true s).deleteCalls = 0 ∧
    (cleanupEvents env d r true s).err = none ∧
    (cleanupEvents env d r true s).stats.deletedEvents =
      s.deletedEvents + (staleNames (env.now - d) l).length ∧
    (cleanupEvents env d r true s).stats.totalEvents = s.totalEvents + l.length := by
  have hl : nsListed env r = l := by simp [nsListed, h]
  refine ⟨?_, ?_, ?_, ?_⟩
  · simp only [cleanupEvents, h]
    split
    · rfl
    · simp
  · simp only [cleanupEvents, h]
    split
    · rfl
    · simp
  · rw [cleanupEvents_stats, hl]
  · rw [cleanupEvents_stats, hl]

/-- Witness for C6 at a concrete input: a dry-run namespace holding one
stale event issues no Delete call but counts 1 would-be-deleted event and
1 total event. -/
theorem c6_dry_run_counts_without_deleting_witness :
    (cleanupEvents envB 100 2 true ⟨0, 0, 0⟩).deleteCalls = 0 ∧
    (cleanupEvents envB 100 2 true ⟨0, 0, 0⟩).stats.deletedEvents = 1 ∧
    (cleanupEvents envB 100 2 true ⟨0, 0, 0⟩).stats.totalEvents = 1 := by
  have hc := c6_dry_run_counts_without_deleting envB 100 2 ⟨0, 0, 0⟩ [sharedEvent] rfl
  refine ⟨hc.1, ?_, ?_⟩
  · have hlen : (staleNames (envB.now - 100) [sharedEvent]).length = 1 := rfl
    have hd := hc.2.2.1
    rw [hlen] at hd
    simpa using hd
  · have ht := hc.2.2.2
    simpa using ht

/-- Claim C9: the statistics counters are incremented by the full size of
the classified-stale set (and the full listed count) before any deletion is
attempted — the result holds for every delete-response behaviour, including
one that aborts the deletion loop partway — and the final report computes
retained events exactly as `totalEvents - deletedEvents`. -/
theorem c9_stats_counted_before_deletion (env : NsEnv) (d : Int) (r : Nat)
    (dry : Bool) (s : Statistics) (l : List Event)
    (h : listWithRetries env.listResp r = Except.ok l) :
    (cleanupEvents env d r dry s).stats.deletedEvents =
      s.deletedEvents + (staleNames (env.now - d) l).length ∧
    (cleanupEvents env d r dry s).stats.totalEvents = s.totalEvents + l.length ∧
    (finalReport dry (cleanupEvents env d r dry s).stats).retainedEvents =
      ((cleanupEvents env d r dry s).stats.totalEvents : Int) -
        ((cleanupEvents env d r dry s).stats.deletedEvents : Int) := by
  have hl : nsListed env r = l := by simp [nsListed, h]
  refine ⟨?_, ?_, rfl⟩
  · rw [cleanupEvents_stats, hl]
  · rw [cleanupEvents_stats, hl]

/-- An event created at 10 whose last occurrence was at 100. -/
def oldEvent1 : Event := ⟨"old1", 10, 100⟩

/-- An event created at 20 whose last occurrence was at 200. -/
def oldEvent2 : Event := ⟨"old2", 20, 200⟩

/-- A namespace with two stale events whose Delete calls always fail with a
non-"not found" error, so its deletion loop aborts on the first event. -/
def envP : NsEnv := ⟨"ns3", 1000, fun _ => Except.ok [oldEvent1, oldEvent2],
  fun _ _ => some (DeleteErr.other "denied")⟩

/-- Witness for C9 at a concrete input: a namespace whose deletion loop
aborts on its first stale event (every Delete attempt is denied) still
counts both classified-stale events as deleted. -/
theorem c9_stats_counted_before_deletion_witness :
    (cleanupEvents envP 100 1 false ⟨0, 0, 0⟩).stats.deletedEvents = 2 ∧
    (cleanupEvents envP 100 1 false ⟨0, 0, 0⟩).err ≠ none := by
  have hc := c9_stats_counted_before_deletion envP 100 1 false ⟨0, 0, 0⟩
    [oldEvent1, oldEvent2] rfl
  constructor
  · have hlen : (staleNames (envP.now - 100) [oldEvent1, oldEvent2]).length = 2 := rfl
    have hd := hc.1
    rw [hlen] at hd
    simpa using hd
  · decide
